import Mathlib

/-!
Verification of the isoparametric finite-element core of the PythonEF
repository against its natural-language specification.

The Lean definitions below are a shallow embedding of the Python code:

* `classes/GroupElem.py` — shape functions and their derivatives per element
  topology (`__get_N_pg`, `get_dN_pg`), the gmsh-id dispatch
  (`Get_ElemInFos`), the geometric mapping (`get_F_e_pg`,
  `get_jacobien_e_pg`, `get_invF_e_pg`), the per-element local frame
  (`__get_sysCoord_sysCoordLocal`), the DOF assembly matrix
  (`get_assembly`), the strain-displacement operator (`get_B_dep_e_pg`),
  the node-to-element incidence queries (`connect_n_e`, `get_elements`),
  and the memoize-then-copy cache discipline of the array getters.
* `classes/Mesh.py` — the duplicated assembly and B-operator builders.
* `modules/Geom.py` — the `Point` class and its coordinate transforms.

Machine floats are modelled by exact rationals (and by real numbers where
square roots and trigonometric functions occur); numpy arrays are modelled
by functions out of index types or by `Matrix`/`List`.  Python `raise` is
modelled by `Except.error`, and a Python method that returns `None` is
modelled by returning `Option.none` in the corresponding component.
-/

/-! ## Reference shape functions (GroupElem.__get_N_pg)

Each list below transcribes one branch of the `elemType` dispatch in
`GroupElem.__get_N_pg` (GroupElem.py lines 522-649).  A function of one,
two or three reference coordinates corresponds to a Python lambda of the
same arity. -/

/-- Shape functions of the SEG2 branch of `GroupElem.__get_N_pg`. -/
def SEG2_Ntild : List (ℚ → ℚ) :=
  [fun x => 0.5*(1-x),
   fun x => 0.5*(1+x)]

/-- Shape functions of the SEG3 branch of `GroupElem.__get_N_pg`. -/
def SEG3_Ntild : List (ℚ → ℚ) :=
  [fun x => -0.5*(1-x)*x,
   fun x => 0.5*(1+x)*x,
   fun x => (1+x)*(1-x)]

/-- Shape functions of the TRI3 branch of `GroupElem.__get_N_pg`. -/
def TRI3_Ntild : List (ℚ → ℚ → ℚ) :=
  [fun ksi eta => 1-ksi-eta,
   fun ksi _eta => ksi,
   fun _ksi eta => eta]

/-- Shape functions of the TRI6 branch of `GroupElem.__get_N_pg`. -/
def TRI6_Ntild : List (ℚ → ℚ → ℚ) :=
  [fun ksi eta => -(1-ksi-eta)*(1-2*(1-ksi-eta)),
   fun ksi _eta => -ksi*(1-2*ksi),
   fun _ksi eta => -eta*(1-2*eta),
   fun ksi eta => 4*ksi*(1-ksi-eta),
   fun ksi eta => 4*ksi*eta,
   fun ksi eta => 4*eta*(1-ksi-eta)]

/-- Shape functions of the QUAD4 branch of `GroupElem.__get_N_pg`. -/
def QUAD4_Ntild : List (ℚ → ℚ → ℚ) :=
  [fun ksi eta => (1-ksi)*(1-eta)/4,
   fun ksi eta => (1+ksi)*(1-eta)/4,
   fun ksi eta => (1+ksi)*(1+eta)/4,
   fun ksi eta => (1-ksi)*(1+eta)/4]

/-- Shape functions of the QUAD8 branch of `GroupElem.__get_N_pg`. -/
def QUAD8_Ntild : List (ℚ → ℚ → ℚ) :=
  [fun ksi eta => (1-ksi)*(1-eta)*(-1-ksi-eta)/4,
   fun ksi eta => (1+ksi)*(1-eta)*(-1+ksi-eta)/4,
   fun ksi eta => (1+ksi)*(1+eta)*(-1+ksi+eta)/4,
   fun ksi eta => (1-ksi)*(1+eta)*(-1-ksi+eta)/4,
   fun ksi eta => (1-ksi^2)*(1-eta)/2,
   fun ksi eta => (1+ksi)*(1-eta^2)/2,
   fun ksi eta => (1-ksi^2)*(1+eta)/2,
   fun ksi eta => (1-ksi)*(1-eta^2)/2]

/-- Shape functions of the TETRA4 branch of `GroupElem.__get_N_pg`. -/
def TETRA4_Ntild : List (ℚ → ℚ → ℚ → ℚ) :=
  [fun x y z => 1-x-y-z,
   fun x _y _z => x,
   fun _x y _z => y,
   fun _x _y z => z]

/-- Shape functions of the HEXA8 branch of `GroupElem.__get_N_pg`. -/
def HEXA8_Ntild : List (ℚ → ℚ → ℚ → ℚ) :=
  [fun x y z => 1/8 * (1-x) * (1-y) * (1-z),
   fun x y z => 1/8 * (1+x) * (1-y) * (1-z),
   fun x y z => 1/8 * (1+x) * (1+y) * (1-z),
   fun x y z => 1/8 * (1-x) * (1+y) * (1-z),
   fun x y z => 1/8 * (1-x) * (1-y) * (1+z),
   fun x y z => 1/8 * (1+x) * (1-y) * (1+z),
   fun x y z => 1/8 * (1+x) * (1+y) * (1+z),
   fun x y z => 1/8 * (1-x) * (1+y) * (1+z)]

/-- Shape functions of the PRISM6 branch of `GroupElem.__get_N_pg`.
The source defines N1t..N6t and then uses the permuted list
`[N3t, N1t, N2t, N6t, N4t, N5t]`; the permutation is kept. -/
def PRISM6_Ntild : List (ℚ → ℚ → ℚ → ℚ) :=
  [fun x y z => 1/2 * (1-y-z) * (1-x),
   fun x y _z => 1/2 * y * (1-x),
   fun x _y z => 1/2 * z * (1-x),
   fun x y z => 1/2 * (1-y-z) * (1+x),
   fun x y _z => 1/2 * y * (1+x),
   fun x _y z => 1/2 * z * (1+x)]

/-- Sum of a list of one-argument shape functions at a point. -/
def sumN1 (Ntild : List (ℚ → ℚ)) (x : ℚ) : ℚ :=
  (Ntild.map fun N => N x).sum

/-- Sum of a list of two-argument shape functions at a point. -/
def sumN2 (Ntild : List (ℚ → ℚ → ℚ)) (ksi eta : ℚ) : ℚ :=
  (Ntild.map fun N => N ksi eta).sum

/-- Sum of a list of three-argument shape functions at a point. -/
def sumN3 (Ntild : List (ℚ → ℚ → ℚ → ℚ)) (x y z : ℚ) : ℚ :=
  (Ntild.map fun N => N x y z).sum

/-- C2: for every supported element topology (SEG2, SEG3, TRI3, TRI6, QUAD4,
QUAD8, TETRA4, HEXA8, PRISM6) and every point of the reference element — in
particular every quadrature point — the closed-form shape functions sum to
one.  Since `get_N_pg` only evaluates these closed forms at the quadrature
points, every quadrature-point row of the returned array sums to 1 exactly
in exact arithmetic. -/
theorem partition_of_unity :
    (forall x : ℚ, sumN1 SEG2_Ntild x = 1) ∧
    (forall x : ℚ, sumN1 SEG3_Ntild x = 1) ∧
    (forall ksi eta : ℚ, sumN2 TRI3_Ntild ksi eta = 1) ∧
    (forall ksi eta : ℚ, sumN2 TRI6_Ntild ksi eta = 1) ∧
    (forall ksi eta : ℚ, sumN2 QUAD4_Ntild ksi eta = 1) ∧
    (forall ksi eta : ℚ, sumN2 QUAD8_Ntild ksi eta = 1) ∧
    (forall x y z : ℚ, sumN3 TETRA4_Ntild x y z = 1) ∧
    (forall x y z : ℚ, sumN3 HEXA8_Ntild x y z = 1) ∧
    (forall x y z : ℚ, sumN3 PRISM6_Ntild x y z = 1) := by
  refine ⟨?_, ?_, ?_, ?_, ?_, ?_, ?_, ?_, ?_⟩ <;> intros <;>
    simp only [sumN1, sumN2, sumN3, SEG2_Ntild, SEG3_Ntild, TRI3_Ntild,
      TRI6_Ntild, QUAD4_Ntild, QUAD8_Ntild, TETRA4_Ntild, HEXA8_Ntild,
      PRISM6_Ntild, List.map_cons, List.map_nil, List.sum_cons,
      List.sum_nil] <;> ring

/-! ## Reference shape function derivatives (GroupElem.get_dN_pg)

Each list transcribes one branch of the `elemType` dispatch in
`GroupElem.get_dN_pg` (GroupElem.py lines 651-773): one inner list per
node, holding the partial derivative with respect to each reference
coordinate. -/

/-- Shape derivatives of the SEG2 branch of `GroupElem.get_dN_pg`. -/
def SEG2_dNtild : List (List (ℚ → ℚ)) :=
  [[fun _x => -0.5],
   [fun _x => 0.5]]

/-- Shape derivatives of the SEG3 branch of `GroupElem.get_dN_pg`. -/
def SEG3_dNtild : List (List (ℚ → ℚ)) :=
  [[fun x => x-0.5],
   [fun x => x+0.5],
   [fun x => -2*x]]

/-- Shape derivatives of the TRI3 branch of `GroupElem.get_dN_pg`. -/
def TRI3_dNtild : List (List (ℚ → ℚ → ℚ)) :=
  [[fun _ksi _eta => -1, fun _ksi _eta => -1],
   [fun _ksi _eta => 1,  fun _ksi _eta => 0],
   [fun _ksi _eta => 0,  fun _ksi _eta => 1]]

/-- Shape derivatives of the TRI6 branch of `GroupElem.get_dN_pg`. -/
def TRI6_dNtild : List (List (ℚ → ℚ → ℚ)) :=
  [[fun ksi eta => 4*ksi+4*eta-3,  fun ksi eta => 4*ksi+4*eta-3],
   [fun ksi _eta => 4*ksi-1,       fun _ksi _eta => 0],
   [fun _ksi _eta => 0,            fun _ksi eta => 4*eta-1],
   [fun ksi eta => 4-8*ksi-4*eta,  fun ksi _eta => -4*ksi],
   [fun _ksi eta => 4*eta,         fun ksi _eta => 4*ksi],
   [fun _ksi eta => -4*eta,        fun ksi eta => 4-4*ksi-8*eta]]

/-- Shape derivatives of the QUAD4 branch of `GroupElem.get_dN_pg`. -/
def QUAD4_dNtild : List (List (ℚ → ℚ → ℚ)) :=
  [[fun _ksi eta => (eta-1)/4,  fun ksi _eta => (ksi-1)/4],
   [fun _ksi eta => (1-eta)/4,  fun ksi _eta => (-ksi-1)/4],
   [fun _ksi eta => (1+eta)/4,  fun ksi _eta => (1+ksi)/4],
   [fun _ksi eta => (-eta-1)/4, fun ksi _eta => (1-ksi)/4]]

/-- Shape derivatives of the QUAD8 branch of `GroupElem.get_dN_pg`. -/
def QUAD8_dNtild : List (List (ℚ → ℚ → ℚ)) :=
  [[fun ksi eta => (1-eta)*(2*ksi+eta)/4,   fun ksi eta => (1-ksi)*(ksi+2*eta)/4],
   [fun ksi eta => (1-eta)*(2*ksi-eta)/4,   fun ksi eta => -(1+ksi)*(ksi-2*eta)/4],
   [fun ksi eta => (1+eta)*(2*ksi+eta)/4,   fun ksi eta => (1+ksi)*(ksi+2*eta)/4],
   [fun ksi eta => -(1+eta)*(-2*ksi+eta)/4, fun ksi eta => (1-ksi)*(-ksi+2*eta)/4],
   [fun ksi eta => -ksi*(1-eta),            fun ksi _eta => -(1-ksi^2)/2],
   [fun _ksi eta => (1-eta^2)/2,            fun ksi eta => -eta*(1+ksi)],
   [fun ksi eta => -ksi*(1+eta),            fun ksi _eta => (1-ksi^2)/2],
   [fun _ksi eta => -(1-eta^2)/2,           fun ksi eta => -eta*(1-ksi)]]

/-- Shape derivatives of the TETRA4 branch of `GroupElem.get_dN_pg`. -/
def TETRA4_dNtild : List (List (ℚ → ℚ → ℚ → ℚ)) :=
  [[fun _x _y _z => -1, fun _x _y _z => -1, fun _x _y _z => -1],
   [fun _x _y _z => 1,  fun _x _y _z => 0,  fun _x _y _z => 0],
   [fun _x _y _z => 0,  fun _x _y _z => 1,  fun _x _y _z => 0],
   [fun _x _y _z => 0,  fun _x _y _z => 0,  fun _x _y _z => 1]]

/-- Shape derivatives of the HEXA8 branch of `GroupElem.get_dN_pg`. -/
def HEXA8_dNtild : List (List (ℚ → ℚ → ℚ → ℚ)) :=
  [[fun _x y z => -1/8 * (1-y) * (1-z), fun x _y z => -1/8 * (1-x) * (1-z), fun x y _z => -1/8 * (1-x) * (1-y)],
   [fun _x y z => 1/8 * (1-y) * (1-z),  fun x _y z => -1/8 * (1+x) * (1-z), fun x y _z => -1/8 * (1+x) * (1-y)],
   [fun _x y z => 1/8 * (1+y) * (1-z),  fun x _y z => 1/8 * (1+x) * (1-z),  fun x y _z => -1/8 * (1+x) * (1+y)],
   [fun _x y z => -1/8 * (1+y) * (1-z), fun x _y z => 1/8 * (1-x) * (1-z),  fun x y _z => -1/8 * (1-x) * (1+y)],
   [fun _x y z => -1/8 * (1-y) * (1+z), fun x _y z => -1/8 * (1-x) * (1+z), fun x y _z => 1/8 * (1-x) * (1-y)],
   [fun _x y z => 1/8 * (1-y) * (1+z),  fun x _y z => -1/8 * (1+x) * (1+z), fun x y _z => 1/8 * (1+x) * (1-y)],
   [fun _x y z => 1/8 * (1+y) * (1+z),  fun x _y z => 1/8 * (1+x) * (1+z),  fun x y _z => 1/8 * (1+x) * (1+y)],
   [fun _x y z => -1/8 * (1+y) * (1+z), fun x _y z => 1/8 * (1-x) * (1+z),  fun x y _z => 1/8 * (1-x) * (1+y)]]

/-- Shape derivatives of the PRISM6 branch of `GroupElem.get_dN_pg`, with
the same node permutation `[dN3t, dN1t, dN2t, dN6t, dN4t, dN5t]` as in the
source. -/
def PRISM6_dNtild : List (List (ℚ → ℚ → ℚ → ℚ)) :=
  [[fun _x y z => -1/2 * (1-y-z), fun x _y _z => -1/2 * (1-x), fun x _y _z => -1/2 * (1-x)],
   [fun _x y _z => -1/2 * y,      fun x _y _z => 1/2 * (1-x),  fun _x _y _z => 0],
   [fun _x _y z => -1/2 * z,      fun _x _y _z => 0,           fun x _y _z => 1/2 * (1-x)],
   [fun _x y z => 1/2 * (1-y-z),  fun x _y _z => -1/2 * (1+x), fun x _y _z => -1/2 * (1+x)],
   [fun _x y _z => 1/2 * y,       fun x _y _z => 1/2 * (1+x),  fun _x _y _z => 0],
   [fun _x _y z => 1/2 * z,       fun _x _y _z => 0,           fun x _y _z => 1/2 * (1+x)]]

/-! ## Topology dispatch (GroupElem.Get_ElemInFos, __get_N_pg, get_dN_pg) -/

/-- Mirror of `GroupElem.Get_ElemInFos` (GroupElem.py lines 980-1029): maps
a gmsh element id to (type name, nodes per element, dimension) through the
same elif chain; the final `raise "Type inconnue"` is modelled by
`Except.error`. -/
def Get_ElemInFos (gmshId : ℕ) : Except String (String × ℕ × ℕ) :=
  if gmshId = 1 then Except.ok ("SEG2", 2, 1)
  else if gmshId = 2 then Except.ok ("TRI3", 3, 2)
  else if gmshId = 3 then Except.ok ("QUAD4", 4, 2)
  else if gmshId = 4 then Except.ok ("TETRA4", 4, 3)
  else if gmshId = 5 then Except.ok ("HEXA8", 8, 3)
  else if gmshId = 6 then Except.ok ("PRISM6", 6, 3)
  else if gmshId = 7 then Except.ok ("PYRA5", 5, 3)
  else if gmshId = 8 then Except.ok ("SEG3", 3, 1)
  else if gmshId = 9 then Except.ok ("TRI6", 6, 2)
  else if gmshId = 10 then Except.ok ("QUAD9", 9, 2)
  else if gmshId = 11 then Except.ok ("TETRA10", 10, 3)
  else if gmshId = 12 then Except.ok ("CUBE27", 27, 3)
  else if gmshId = 13 then Except.ok ("PRISM18", 18, 3)
  else if gmshId = 14 then Except.ok ("PYRA14", 17, 3)
  else if gmshId = 15 then Except.ok ("POINT", 1, 0)
  else if gmshId = 16 then Except.ok ("QUAD8", 8, 2)
  else if gmshId = 18 then Except.ok ("PRISM15", 15, 3)
  else if gmshId = 19 then Except.ok ("PYRA13", 13, 3)
  else Except.error "Type inconnue"

/-- Shape-function lists of the three possible reference dimensions. -/
inductive ShapeFuns where
  | d1 : List (ℚ → ℚ) → ShapeFuns
  | d2 : List (ℚ → ℚ → ℚ) → ShapeFuns
  | d3 : List (ℚ → ℚ → ℚ → ℚ) → ShapeFuns

/-- Shape-derivative lists of the three possible reference dimensions. -/
inductive ShapeDerivs where
  | d1 : List (List (ℚ → ℚ)) → ShapeDerivs
  | d2 : List (List (ℚ → ℚ → ℚ)) → ShapeDerivs
  | d3 : List (List (ℚ → ℚ → ℚ → ℚ)) → ShapeDerivs

/-- Mirror of the `elemType` dispatch of `GroupElem.__get_N_pg`
(GroupElem.py lines 528-629): the nine implemented branches return their
`Ntild` list and the final `raise "Element inconnue"` is modelled by
`Except.error`. -/
def Ntild_of_elemType (elemType : String) : Except String ShapeFuns :=
  if elemType = "SEG2" then Except.ok (ShapeFuns.d1 SEG2_Ntild)
  else if elemType = "SEG3" then Except.ok (ShapeFuns.d1 SEG3_Ntild)
  else if elemType = "TRI3" then Except.ok (ShapeFuns.d2 TRI3_Ntild)
  else if elemType = "TRI6" then Except.ok (ShapeFuns.d2 TRI6_Ntild)
  else if elemType = "QUAD4" then Except.ok (ShapeFuns.d2 QUAD4_Ntild)
  else if elemType = "QUAD8" then Except.ok (ShapeFuns.d2 QUAD8_Ntild)
  else if elemType = "TETRA4" then Except.ok (ShapeFuns.d3 TETRA4_Ntild)
  else if elemType = "HEXA8" then Except.ok (ShapeFuns.d3 HEXA8_Ntild)
  else if elemType = "PRISM6" then Except.ok (ShapeFuns.d3 PRISM6_Ntild)
  else Except.error "Element inconnue"

/-- Mirror of the `elemType` dispatch of `GroupElem.get_dN_pg`
(GroupElem.py lines 658-750). -/
def dNtild_of_elemType (elemType : String) : Except String ShapeDerivs :=
  if elemType = "SEG2" then Except.ok (ShapeDerivs.d1 SEG2_dNtild)
  else if elemType = "SEG3" then Except.ok (ShapeDerivs.d1 SEG3_dNtild)
  else if elemType = "TRI3" then Except.ok (ShapeDerivs.d2 TRI3_dNtild)
  else if elemType = "TRI6" then Except.ok (ShapeDerivs.d2 TRI6_dNtild)
  else if elemType = "QUAD4" then Except.ok (ShapeDerivs.d2 QUAD4_dNtild)
  else if elemType = "QUAD8" then Except.ok (ShapeDerivs.d2 QUAD8_dNtild)
  else if elemType = "TETRA4" then Except.ok (ShapeDerivs.d3 TETRA4_dNtild)
  else if elemType = "HEXA8" then Except.ok (ShapeDerivs.d3 HEXA8_dNtild)
  else if elemType = "PRISM6" then Except.ok (ShapeDerivs.d3 PRISM6_dNtild)
  else Except.error "Element inconnue"

/-- Mirror of the control flow of `GroupElem.__get_N_pg` for a group built
from a gmsh id: the element type and dimension come from `Get_ElemInFos`
(which raises on an unknown id), `if self.dim == 0: return` yields `none`,
and otherwise the `elemType` dispatch either returns the shape functions or
raises. -/
def get_N_pg_of_gmshId (gmshId : ℕ) : Except String (Option ShapeFuns) :=
  match Get_ElemInFos gmshId with
  | Except.error e => Except.error e
  | Except.ok (elemType, _nPe, dim) =>
      if dim = 0 then Except.ok none
      else (Ntild_of_elemType elemType).map some

/-- Mirror of the control flow of `GroupElem.get_dN_pg` for a group built
from a gmsh id. -/
def get_dN_pg_of_gmshId (gmshId : ℕ) : Except String (Option ShapeDerivs) :=
  match Get_ElemInFos gmshId with
  | Except.error e => Except.error e
  | Except.ok (elemType, _nPe, dim) =>
      if dim = 0 then Except.ok none
      else (dNtild_of_elemType elemType).map some

/-- Element type names whose shape functions are implemented. -/
def implementedTypes : List String :=
  ["SEG2", "SEG3", "TRI3", "TRI6", "QUAD4", "QUAD8", "TETRA4", "HEXA8", "PRISM6"]

/-- Gmsh ids accepted by `Get_ElemInFos`. -/
def knownGmshIds : List ℕ :=
  [1, 2, 3, 4, 5, 6, 7, 8, 9, 10, 11, 12, 13, 14, 15, 16, 18, 19]

/-- C7 counterexample: the POINT topology (gmsh id 15) lies outside the
implemented set SEG2..PRISM6, yet requesting its shape functions or their
derivatives does not raise: `GroupElem.__get_N_pg` and
`GroupElem.get_dN_pg` both take the early `if self.dim == 0: return` exit
and return `None` instead of an error. -/
theorem point_topology_returns_none :
    ("POINT" ∉ implementedTypes) ∧
    get_N_pg_of_gmshId 15 = Except.ok none ∧
    get_dN_pg_of_gmshId 15 = Except.ok none := by
  refine ⟨by decide, rfl, rfl⟩

/-- Outside the nine implemented topologies, the shape-function dispatch of
`GroupElem.__get_N_pg` always reaches the final raise. -/
lemma Ntild_unimplemented (elemType : String) (ht : elemType ∉ implementedTypes) :
    Ntild_of_elemType elemType = Except.error "Element inconnue" := by
  unfold Ntild_of_elemType
  split_ifs <;> first
    | rfl
    | (subst_vars; exact absurd (by decide) ht)

/-- Outside the nine implemented topologies, the shape-derivative dispatch
of `GroupElem.get_dN_pg` always reaches the final raise. -/
lemma dNtild_unimplemented (elemType : String) (ht : elemType ∉ implementedTypes) :
    dNtild_of_elemType elemType = Except.error "Element inconnue" := by
  unfold dNtild_of_elemType
  split_ifs <;> first
    | rfl
    | (subst_vars; exact absurd (by decide) ht)

/-- Outside the known gmsh ids, `GroupElem.Get_ElemInFos` always reaches
the final raise. -/
lemma Get_ElemInFos_unknown (gmshId : ℕ) (hg : gmshId ∉ knownGmshIds) :
    Get_ElemInFos gmshId = Except.error "Type inconnue" := by
  rcases Nat.lt_or_ge gmshId 20 with h | h
  · interval_cases gmshId <;> first
      | rfl
      | (exact absurd (by decide) hg)
  · have h1 : gmshId ≠ 1 := by omega
    have h2 : gmshId ≠ 2 := by omega
    have h3 : gmshId ≠ 3 := by omega
    have h4 : gmshId ≠ 4 := by omega
    have h5 : gmshId ≠ 5 := by omega
    have h6 : gmshId ≠ 6 := by omega
    have h7 : gmshId ≠ 7 := by omega
    have h8 : gmshId ≠ 8 := by omega
    have h9 : gmshId ≠ 9 := by omega
    have h10 : gmshId ≠ 10 := by omega
    have h11 : gmshId ≠ 11 := by omega
    have h12 : gmshId ≠ 12 := by omega
    have h13 : gmshId ≠ 13 := by omega
    have h14 : gmshId ≠ 14 := by omega
    have h15 : gmshId ≠ 15 := by omega
    have h16 : gmshId ≠ 16 := by omega
    have h18 : gmshId ≠ 18 := by omega
    have h19 : gmshId ≠ 19 := by omega
    simp only [Get_ElemInFos, h1, h2, h3, h4, h5, h6, h7, h8, h9, h10, h11,
      h12, h13, h14, h15, h16, h18, h19, if_false, ite_false]

/-- C7 amended: for every element type outside the implemented set, the
shape-function and shape-derivative dispatches raise "Element inconnue";
for every gmsh id outside the known id list, `Get_ElemInFos` raises
"Type inconnue"; no branch ever substitutes a nearby topology.  The one
exception, forced by the counterexample, is the dimension-0 POINT topology
(gmsh id 15), for which the getters return `None` (not applicable) without
raising. -/
theorem unsupported_topology_errors (elemType : String) (gmshId : ℕ)
    (ht : elemType ∉ implementedTypes) (hg : gmshId ∉ knownGmshIds) :
    Ntild_of_elemType elemType = Except.error "Element inconnue" ∧
    dNtild_of_elemType elemType = Except.error "Element inconnue" ∧
    Get_ElemInFos gmshId = Except.error "Type inconnue" ∧
    get_N_pg_of_gmshId 15 = Except.ok none :=
  ⟨Ntild_unimplemented elemType ht, dNtild_unimplemented elemType ht,
   Get_ElemInFos_unknown gmshId hg, rfl⟩

/-- C7 witness: the amended theorem applied to the unimplemented PYRA5
topology and to the unassigned gmsh id 17. -/
theorem unsupported_topology_errors_witness :
    ("PYRA5" ∉ implementedTypes ∧ (17 : ℕ) ∉ knownGmshIds) ∧
    (Ntild_of_elemType "PYRA5" = Except.error "Element inconnue" ∧
     dNtild_of_elemType "PYRA5" = Except.error "Element inconnue" ∧
     Get_ElemInFos 17 = Except.error "Type inconnue" ∧
     get_N_pg_of_gmshId 15 = Except.ok none) :=
  ⟨⟨by decide, by decide⟩,
   unsupported_topology_errors "PYRA5" 17 (by decide) (by decide)⟩

/-! ## Geometric mapping (GroupElem.get_F_e_pg, get_jacobien_e_pg, get_invF_e_pg) -/

/-- Modelled from the spec: the `Gauss` class (imported by GroupElem.py)
is not under src.  Per spec section 4.2, QuadratureRules returns, for a
(topology, purpose) pair, a fixed ordered list of reference-space points
with positive weights of sufficient polynomial exactness; for TRI3 under
the stiffness purpose a single point at (1/3, 1/3) with weight 1/2
integrates the (constant) first-derivative products exactly. -/
def gaussTRI3_rigi_coord : List (ℚ × ℚ) := [(1/3, 1/3)]

/-- Evaluation loop at the end of `GroupElem.get_dN_pg` for a TRI3 group:
dN_pg[pg, d, n] = dNtild[n][d](coord[pg]). -/
def dN_pg_TRI3 (p : ℕ) : Matrix (Fin 2) (Fin 3) ℚ :=
  Matrix.of fun d n =>
    ((TRI3_dNtild.getD n.val []).getD d.val (fun _ _ => 0))
      (gaussTRI3_rigi_coord.getD p (0, 0)).1
      (gaussTRI3_rigi_coord.getD p (0, 0)).2

/-- Mirror of `GroupElem.get_F_e_pg` (GroupElem.py lines 446-468): the
einsum contraction pik,ekj->epij is, per element e and point p, the matrix
product dN_pg[p] * nodes_e[e].  The nodes are taken in the local dim
columns; the sysCoord projection branch (taken only when an out-of-plane
coordinate is present) is modelled separately below. -/
def get_F_e_pg {d nPe : ℕ} (dN_pg : ℕ → Matrix (Fin d) (Fin nPe) ℚ)
    (nodes_e : ℕ → Matrix (Fin nPe) (Fin d) ℚ) (e p : ℕ) :
    Matrix (Fin d) (Fin d) ℚ :=
  dN_pg p * nodes_e e

/-- Mirror of `GroupElem.get_jacobien_e_pg` (GroupElem.py lines 470-482):
np.linalg.det applied to each F matrix, with no further check of any
kind; the value is stored in the cache and returned. -/
def get_jacobien_e_pg {d nPe : ℕ} (dN_pg : ℕ → Matrix (Fin d) (Fin nPe) ℚ)
    (nodes_e : ℕ → Matrix (Fin nPe) (Fin d) ℚ) (e p : ℕ) : ℚ :=
  (get_F_e_pg dN_pg nodes_e e p).det

/-- dim == 1 branch of `GroupElem.get_invF_e_pg`: elementwise reciprocal
1/F. -/
def invF_dim1 (F : Matrix (Fin 1) (Fin 1) ℚ) : Matrix (Fin 1) (Fin 1) ℚ :=
  Matrix.of fun i j => 1 / F i j

/-- dim == 2 branch of `GroupElem.get_invF_e_pg`: the closed-form
adjugate entries [[b, -beta], [-a, alpha]] scaled by 1/det, where det is
obtained from `get_jacobien_e_pg`. -/
def invF_dim2 (F : Matrix (Fin 2) (Fin 2) ℚ) : Matrix (Fin 2) (Fin 2) ℚ :=
  let det := F.det
  let alpha := F 0 0
  let beta := F 0 1
  let a := F 1 0
  let b := F 1 1
  (1 / det) • Matrix.of ![![b, -beta], ![-a, alpha]]

/-- dim == 3 branch of `GroupElem.get_invF_e_pg`: np.linalg.inv computes
the exact matrix inverse, which for an invertible matrix equals the
adjugate divided by the determinant. -/
def invF_dim3 (F : Matrix (Fin 3) (Fin 3) ℚ) : Matrix (Fin 3) (Fin 3) ℚ :=
  (F.det)⁻¹ • F.adjugate

/-- `get_invF_e_pg` of a dimension-1 group. -/
def get_invF_e_pg1 {nPe : ℕ} (dN_pg : ℕ → Matrix (Fin 1) (Fin nPe) ℚ)
    (nodes_e : ℕ → Matrix (Fin nPe) (Fin 1) ℚ) (e p : ℕ) :
    Matrix (Fin 1) (Fin 1) ℚ :=
  invF_dim1 (get_F_e_pg dN_pg nodes_e e p)

/-- `get_invF_e_pg` of a dimension-2 group. -/
def get_invF_e_pg2 {nPe : ℕ} (dN_pg : ℕ → Matrix (Fin 2) (Fin nPe) ℚ)
    (nodes_e : ℕ → Matrix (Fin nPe) (Fin 2) ℚ) (e p : ℕ) :
    Matrix (Fin 2) (Fin 2) ℚ :=
  invF_dim2 (get_F_e_pg dN_pg nodes_e e p)

/-- `get_invF_e_pg` of a dimension-3 group. -/
def get_invF_e_pg3 {nPe : ℕ} (dN_pg : ℕ → Matrix (Fin 3) (Fin nPe) ℚ)
    (nodes_e : ℕ → Matrix (Fin nPe) (Fin 3) ℚ) (e p : ℕ) :
    Matrix (Fin 3) (Fin 3) ℚ :=
  invF_dim3 (get_F_e_pg dN_pg nodes_e e p)

/-- Nodes of the reference TRI3 element (0,0), (1,0), (0,1): one element,
counterclockwise, non-degenerate. -/
def nodes_TRI3_ref : ℕ → Matrix (Fin 3) (Fin 2) ℚ :=
  fun _ => Matrix.of ![![0, 0], ![1, 0], ![0, 1]]

/-- Degenerate TRI3 element whose three nodes coincide at the origin. -/
def nodes_TRI3_degenerate : ℕ → Matrix (Fin 3) (Fin 2) ℚ :=
  fun _ => Matrix.of ![![0, 0], ![0, 0], ![0, 0]]

/-- C1 counterexample: for the degenerate TRI3 element whose three nodes
coincide, `get_jacobien_e_pg` returns the non-positive value 0 as an
ordinary result.  The source (GroupElem.py lines 470-482) computes
np.linalg.det(F_e_pg), caches it and returns it: there is no positivity
check and no abort, so the claimed fatal failure on a non-positive
determinant does not exist. -/
theorem jacobien_nonpositive_returned :
    get_jacobien_e_pg dN_pg_TRI3 nodes_TRI3_degenerate 0 0 = 0 := by
  simp [get_jacobien_e_pg, get_F_e_pg, nodes_TRI3_degenerate,
    Matrix.det_fin_two, Matrix.mul_apply, Fin.sum_univ_three]

/-- C1 amended: `get_jacobien_e_pg` computes det(F_e_pg) and returns it
unconditionally, with no positivity check: a strictly positive value is
produced for a well-oriented element (reference TRI3 gives 1), but a
degenerate element produces the non-positive value 0 which is returned to
the caller instead of aborting the assembly. -/
theorem jacobien_is_unchecked_det :
    (forall (nPe : ℕ) (dN_pg : ℕ → Matrix (Fin 2) (Fin nPe) ℚ)
      (nodes_e : ℕ → Matrix (Fin nPe) (Fin 2) ℚ) (e p : ℕ),
      get_jacobien_e_pg dN_pg nodes_e e p = (get_F_e_pg dN_pg nodes_e e p).det) ∧
    get_jacobien_e_pg dN_pg_TRI3 nodes_TRI3_ref 0 0 = 1 ∧
    get_jacobien_e_pg dN_pg_TRI3 nodes_TRI3_degenerate 0 0 = 0 := by
  refine ⟨fun _ _ _ _ _ => rfl, ?_, ?_⟩
  · simp [get_jacobien_e_pg, get_F_e_pg, nodes_TRI3_ref, dN_pg_TRI3,
      TRI3_dNtild, gaussTRI3_rigi_coord, Matrix.det_fin_two,
      Matrix.mul_apply, Fin.sum_univ_three]
  · simp [get_jacobien_e_pg, get_F_e_pg, nodes_TRI3_degenerate,
      Matrix.det_fin_two, Matrix.mul_apply, Fin.sum_univ_three]

/-- The 1x1 reciprocal is a left inverse when the determinant (= the
single entry) is nonzero. -/
lemma invF_dim1_mul (F : Matrix (Fin 1) (Fin 1) ℚ) (h : F.det ≠ 0) :
    invF_dim1 F * F = 1 := by
  rw [Matrix.det_fin_one] at h
  ext i j
  fin_cases i
  fin_cases j
  simp [invF_dim1, Matrix.mul_apply]
  field_simp

/-- The closed-form 2x2 adjugate-over-determinant is a left inverse when
the determinant is nonzero. -/
lemma invF_dim2_mul (F : Matrix (Fin 2) (Fin 2) ℚ) (h : F.det ≠ 0) :
    invF_dim2 F * F = 1 := by
  have hd : F.det = F 0 0 * F 1 1 - F 0 1 * F 1 0 := Matrix.det_fin_two F
  ext i j
  fin_cases i <;> fin_cases j <;>
    simp [invF_dim2, Matrix.mul_apply, Fin.sum_univ_two, Matrix.one_apply] <;>
    field_simp <;> (try rw [hd]) <;> ring

/-- The 3x3 adjugate-over-determinant (the exact value of np.linalg.inv)
is a left inverse when the determinant is nonzero. -/
lemma invF_dim3_mul (F : Matrix (Fin 3) (Fin 3) ℚ) (h : F.det ≠ 0) :
    invF_dim3 F * F = 1 := by
  rw [invF_dim3, Matrix.smul_mul, Matrix.adjugate_mul, smul_smul,
    inv_mul_cancel₀ h, one_smul]

/-- C3: in all three dimensional specializations, the array returned by
`get_invF_e_pg` is, at every element e and quadrature point p with nonzero
det(F_e_pg), a left inverse of the Jacobian returned by `get_F_e_pg`:
scalar reciprocal in 1D, closed-form adjugate over determinant in 2D,
general matrix inverse in 3D. -/
theorem invF_mul_F_eq_one {nPe1 nPe2 nPe3 : ℕ}
    (dN1 : ℕ → Matrix (Fin 1) (Fin nPe1) ℚ)
    (nodes1 : ℕ → Matrix (Fin nPe1) (Fin 1) ℚ)
    (dN2 : ℕ → Matrix (Fin 2) (Fin nPe2) ℚ)
    (nodes2 : ℕ → Matrix (Fin nPe2) (Fin 2) ℚ)
    (dN3 : ℕ → Matrix (Fin 3) (Fin nPe3) ℚ)
    (nodes3 : ℕ → Matrix (Fin nPe3) (Fin 3) ℚ)
    (e p : ℕ)
    (h1 : (get_F_e_pg dN1 nodes1 e p).det ≠ 0)
    (h2 : (get_F_e_pg dN2 nodes2 e p).det ≠ 0)
    (h3 : (get_F_e_pg dN3 nodes3 e p).det ≠ 0) :
    get_invF_e_pg1 dN1 nodes1 e p * get_F_e_pg dN1 nodes1 e p = 1 ∧
    get_invF_e_pg2 dN2 nodes2 e p * get_F_e_pg dN2 nodes2 e p = 1 ∧
    get_invF_e_pg3 dN3 nodes3 e p * get_F_e_pg dN3 nodes3 e p = 1 :=
  ⟨invF_dim1_mul _ h1, invF_dim2_mul _ h2, invF_dim3_mul _ h3⟩

/-- Concrete dN array of a one-node 1D group used as witness input. -/
def dNw1 : ℕ → Matrix (Fin 1) (Fin 1) ℚ := fun _ => 1

/-- Concrete 1D nodes used as witness input; F = [[2]]. -/
def nodesw1 : ℕ → Matrix (Fin 1) (Fin 1) ℚ := fun _ => Matrix.of ![![2]]

/-- Concrete dN array of a two-node 2D group used as witness input. -/
def dNw2 : ℕ → Matrix (Fin 2) (Fin 2) ℚ := fun _ => 1

/-- Concrete 2D nodes used as witness input; F = [[2,1],[1,1]], det 1. -/
def nodesw2 : ℕ → Matrix (Fin 2) (Fin 2) ℚ := fun _ => Matrix.of ![![2, 1], ![1, 1]]

/-- Concrete dN array of a three-node 3D group used as witness input. -/
def dNw3 : ℕ → Matrix (Fin 3) (Fin 3) ℚ := fun _ => 1

/-- Concrete 3D nodes used as witness input; F = diag(1,2,3), det 6. -/
def nodesw3 : ℕ → Matrix (Fin 3) (Fin 3) ℚ :=
  fun _ => Matrix.of ![![1, 0, 0], ![0, 2, 0], ![0, 0, 3]]

/-- C3 witness: the inverse-consistency theorem applied at concrete
nonsingular inputs in each dimension. -/
theorem invF_mul_F_eq_one_witness :
    ((get_F_e_pg dNw1 nodesw1 0 0).det ≠ 0 ∧
     (get_F_e_pg dNw2 nodesw2 0 0).det ≠ 0 ∧
     (get_F_e_pg dNw3 nodesw3 0 0).det ≠ 0) ∧
    (get_invF_e_pg1 dNw1 nodesw1 0 0 * get_F_e_pg dNw1 nodesw1 0 0 = 1 ∧
     get_invF_e_pg2 dNw2 nodesw2 0 0 * get_F_e_pg dNw2 nodesw2 0 0 = 1 ∧
     get_invF_e_pg3 dNw3 nodesw3 0 0 * get_F_e_pg dNw3 nodesw3 0 0 = 1) := by
  have h1 : (get_F_e_pg dNw1 nodesw1 0 0).det ≠ 0 := by
    simp [get_F_e_pg, dNw1, nodesw1, Matrix.det_fin_one]
  have h2 : (get_F_e_pg dNw2 nodesw2 0 0).det ≠ 0 := by
    simp [get_F_e_pg, dNw2, nodesw2, Matrix.det_fin_two]
    norm_num
  have h3 : (get_F_e_pg dNw3 nodesw3 0 0).det ≠ 0 := by
    simp [get_F_e_pg, dNw3, nodesw3, Matrix.det_fin_three]
  exact ⟨⟨h1, h2, h3⟩,
    invF_mul_F_eq_one dNw1 nodesw1 dNw2 nodesw2 dNw3 nodesw3 0 0 h1 h2 h3⟩

/-! ## Per-element local frame (GroupElem.__get_sysCoord_sysCoordLocal) -/

/-- Euclidean norm of a 3-vector, np.linalg.norm of one row. -/
noncomputable def norm3 (v : Fin 3 → ℝ) : ℝ :=
  Real.sqrt (v 0 ^ 2 + v 1 ^ 2 + v 2 ^ 2)

/-- Normalisation step of `__get_sysCoord_sysCoordLocal`: the einsum
ei,e->ei multiplies each row by the reciprocal of its norm. -/
noncomputable def normalize3 (v : Fin 3 → ℝ) : Fin 3 → ℝ :=
  fun idx => v idx * (1 / norm3 v)

/-- Componentwise cross product, np.cross along axis 1. -/
def cross3 (u v : Fin 3 → ℝ) : Fin 3 → ℝ :=
  ![u 1 * v 2 - u 2 * v 1, u 2 * v 0 - u 0 * v 2, u 0 * v 1 - u 1 * v 0]

/-- Euclidean dot product of two 3-vectors. -/
def dot3 (u v : Fin 3 → ℝ) : ℝ :=
  u 0 * v 0 + u 1 * v 1 + u 2 * v 2

/-- Mirror of the dim == 2 branch of `GroupElem.__get_sysCoord_sysCoordLocal`
(GroupElem.py lines 411-432) for one element with corner points p1, p2, p3:
row i is the normalised edge p2 - p1, row j is the normalised edge p3 - p1
(no orthogonalisation against i is performed), and row k = cross(i, j). -/
noncomputable def sysCoord_dim2 (p1 p2 p3 : Fin 3 → ℝ) :
    (Fin 3 → ℝ) × (Fin 3 → ℝ) × (Fin 3 → ℝ) :=
  let i := normalize3 (fun idx => p2 idx - p1 idx)
  let j := normalize3 (fun idx => p3 idx - p1 idx)
  (i, j, cross3 i j)

/-- First corner of the counterexample triangle, lying in the plane z = 1
so that the out-of-plane coordinate is nonzero. -/
def cexP1 : Fin 3 → ℝ := ![0, 0, 1]

/-- Second corner of the counterexample triangle. -/
def cexP2 : Fin 3 → ℝ := ![1, 0, 1]

/-- Third corner of the counterexample triangle. -/
def cexP3 : Fin 3 → ℝ := ![3, 4, 1]

/-- C4 counterexample: for the triangle (0,0,1), (1,0,1), (3,4,1) — whose
nodes have the nonzero out-of-plane coordinate z = 1 — the rows i and j of
sysCoord_e are not orthogonal: their dot product is 3/5.  The source
normalises the two edge vectors but never subtracts the projection of the
second edge on the first, so no Gram-Schmidt orthogonalisation takes
place. -/
theorem sysCoord_rows_not_orthogonal :
    cexP1 2 ≠ 0 ∧
    dot3 (sysCoord_dim2 cexP1 cexP2 cexP3).1
      (sysCoord_dim2 cexP1 cexP2 cexP3).2.1 = 3 / 5 ∧
    (3 / 5 : ℝ) ≠ 0 := by
  refine ⟨by norm_num [cexP1], ?_, by norm_num⟩
  have e1 : norm3 (fun idx => cexP2 idx - cexP1 idx) = 1 := by
    simp [norm3, cexP1, cexP2]
  have e2 : norm3 (fun idx => cexP3 idx - cexP1 idx) = 5 := by
    have : ((3:ℝ) - 0) ^ 2 + (4 - 0) ^ 2 + (1 - 1) ^ 2 = 5 ^ 2 := by norm_num
    simp only [norm3, cexP1, cexP3, Matrix.cons_val_zero, Matrix.cons_val_one,
      Matrix.head_cons, Matrix.cons_val_two, Matrix.tail_cons]
    rw [this, Real.sqrt_sq (by norm_num : (0:ℝ) ≤ 5)]
  simp only [sysCoord_dim2, dot3, normalize3, e1, e2]
  norm_num [cexP1, cexP2, cexP3]

/-- A nonzero 3-vector has a strictly positive sum of squared
components. -/
lemma sq_sum_pos (v : Fin 3 → ℝ) (hv : v ≠ 0) :
    0 < v 0 ^ 2 + v 1 ^ 2 + v 2 ^ 2 := by
  by_contra hle
  push_neg at hle
  have h0 : v 0 ^ 2 = 0 := by
    nlinarith [sq_nonneg (v 0), sq_nonneg (v 1), sq_nonneg (v 2)]
  have h1 : v 1 ^ 2 = 0 := by
    nlinarith [sq_nonneg (v 0), sq_nonneg (v 1), sq_nonneg (v 2)]
  have h2 : v 2 ^ 2 = 0 := by
    nlinarith [sq_nonneg (v 0), sq_nonneg (v 1), sq_nonneg (v 2)]
  apply hv
  funext idx
  fin_cases idx <;>
    [exact pow_eq_zero_iff two_ne_zero |>.mp h0;
     exact pow_eq_zero_iff two_ne_zero |>.mp h1;
     exact pow_eq_zero_iff two_ne_zero |>.mp h2]

/-- Normalising a nonzero vector yields a unit vector. -/
lemma dot3_normalize3_self (v : Fin 3 → ℝ) (hv : v ≠ 0) :
    dot3 (normalize3 v) (normalize3 v) = 1 := by
  have hp := sq_sum_pos v hv
  have hs : norm3 v * norm3 v = v 0 ^ 2 + v 1 ^ 2 + v 2 ^ 2 :=
    Real.mul_self_sqrt hp.le
  have hn : norm3 v ≠ 0 := by
    have : 0 < norm3 v := Real.sqrt_pos.mpr hp
    exact this.ne'
  calc dot3 (normalize3 v) (normalize3 v)
      = (v 0 ^ 2 + v 1 ^ 2 + v 2 ^ 2) / (norm3 v * norm3 v) := by
        simp only [dot3, normalize3]
        field_simp
        ring
    _ = 1 := by rw [hs]; exact div_self hp.ne'

/-- C4 amended: the rows i, j of the per-element frame built by
`__get_sysCoord_sysCoordLocal` for a 2D element with nonzero edges are
unit vectors and row k = cross(i, j), but i and j are only the normalised
edge vectors: they are not orthogonalised against each other, and the
counterexample shows i . j is nonzero for a generic triangle, so the frame
is not produced by Gram-Schmidt and is not orthonormal in general. -/
theorem sysCoord_rows_unit_not_orthogonalised (p1 p2 p3 : Fin 3 → ℝ)
    (h2 : (fun idx => p2 idx - p1 idx) ≠ 0)
    (h3 : (fun idx => p3 idx - p1 idx) ≠ 0) :
    dot3 (sysCoord_dim2 p1 p2 p3).1 (sysCoord_dim2 p1 p2 p3).1 = 1 ∧
    dot3 (sysCoord_dim2 p1 p2 p3).2.1 (sysCoord_dim2 p1 p2 p3).2.1 = 1 ∧
    (sysCoord_dim2 p1 p2 p3).2.2 =
      cross3 (sysCoord_dim2 p1 p2 p3).1 (sysCoord_dim2 p1 p2 p3).2.1 :=
  ⟨dot3_normalize3_self _ h2, dot3_normalize3_self _ h3, rfl⟩

/-- C4 witness: the amended theorem applied to the counterexample
triangle. -/
theorem sysCoord_rows_unit_witness :
    ((fun idx => cexP2 idx - cexP1 idx) ≠ 0 ∧
     (fun idx => cexP3 idx - cexP1 idx) ≠ 0) ∧
    (dot3 (sysCoord_dim2 cexP1 cexP2 cexP3).1
       (sysCoord_dim2 cexP1 cexP2 cexP3).1 = 1 ∧
     dot3 (sysCoord_dim2 cexP1 cexP2 cexP3).2.1
       (sysCoord_dim2 cexP1 cexP2 cexP3).2.1 = 1 ∧
     (sysCoord_dim2 cexP1 cexP2 cexP3).2.2 =
       cross3 (sysCoord_dim2 cexP1 cexP2 cexP3).1
         (sysCoord_dim2 cexP1 cexP2 cexP3).2.1) := by
  have hA : (fun idx => cexP2 idx - cexP1 idx) ≠ 0 := by
    intro h
    have := congrFun h 0
    norm_num [cexP1, cexP2] at this
  have hB : (fun idx => cexP3 idx - cexP1 idx) ≠ 0 := by
    intro h
    have := congrFun h 1
    norm_num [cexP1, cexP3] at this
  exact ⟨⟨hA, hB⟩, sysCoord_rows_unit_not_orthogonalised cexP1 cexP2 cexP3 hA hB⟩

/-! ## DOF assembly matrix (GroupElem.get_assembly, Mesh.__get_assembly) -/

/-- One slice assignment of the assembly loop: the numpy statement
assembly[:, np.arange(d, nPe*dim, dim)] = connect * dim + d writes
connect[e, m]*dim + d into column m*dim + d for every m < nPe, leaving all
other entries of the previous array A unchanged. -/
def assembly_setD (connect : ℕ → ℕ → ℕ) (nPe dim d : ℕ)
    (A : ℕ → ℕ → ℕ) : ℕ → ℕ → ℕ :=
  fun e k => if k % dim = d ∧ k < nPe * dim then connect e (k / dim) * dim + d
    else A e k

/-- Mirror of `GroupElem.get_assembly` (GroupElem.py lines 120-132): start
from the zero matrix of shape (Ne, nPe*dim) and run the slice assignment
for d in range(dim). -/
def get_assembly (connect : ℕ → ℕ → ℕ) (nPe dim : ℕ) : ℕ → ℕ → ℕ :=
  (List.range dim).foldl (fun A d => assembly_setD connect nPe dim d A)
    (fun _ _ => 0)

/-- Mirror of `Mesh.__get_assembly` (Mesh.py lines 175-188): two
unconditional slice assignments for components 0 and 1, plus a third one
when dim == 3. -/
def mesh_assembly (connect : ℕ → ℕ → ℕ) (nPe dim : ℕ) : ℕ → ℕ → ℕ :=
  let A0 : ℕ → ℕ → ℕ := fun _ _ => 0
  let A1 := assembly_setD connect nPe dim 0 A0
  let A2 := assembly_setD connect nPe dim 1 A1
  if dim = 3 then assembly_setD connect nPe dim 2 A2 else A2

/-- Closed form of the assembly loop over any list of components. -/
lemma assembly_foldl (connect : ℕ → ℕ → ℕ) (nPe dim : ℕ) (ds : List ℕ)
    (A : ℕ → ℕ → ℕ) (e k : ℕ) :
    (ds.foldl (fun B d => assembly_setD connect nPe dim d B) A) e k =
    if k % dim ∈ ds ∧ k < nPe * dim
      then connect e (k / dim) * dim + k % dim else A e k := by
  induction ds generalizing A with
  | nil => simp
  | cons d ds ih =>
      rw [List.foldl_cons, ih]
      by_cases hm : k % dim ∈ ds <;> by_cases hb : k < nPe * dim <;>
        by_cases hd : k % dim = d <;>
        simp [assembly_setD, hm, hb, hd, List.mem_cons]

/-- C5: for every element group (and every Mesh of dimension 2 or 3),
every element e, every local node index n < nPe and every component
d < dim, the DOF-assembly matrix satisfies
assembly_e[e, n*dim + d] = connect[e, n]*dim + d, the convention
global_dof = node_id * dim + component. -/
theorem assembly_entry (connect : ℕ → ℕ → ℕ) (nPe dim e n d : ℕ)
    (hn : n < nPe) (hd : d < dim) :
    get_assembly connect nPe dim e (n * dim + d) = connect e n * dim + d ∧
    (dim = 2 ∨ dim = 3 →
      mesh_assembly connect nPe dim e (n * dim + d) = connect e n * dim + d) := by
  have hmod : (n * dim + d) % dim = d := by
    rw [Nat.mul_comm n dim, Nat.mul_add_mod, Nat.mod_eq_of_lt hd]
  have hdiv : (n * dim + d) / dim = n := by
    rw [Nat.mul_comm n dim, Nat.mul_add_div (by omega : 0 < dim),
      Nat.div_eq_of_lt hd, Nat.add_zero]
  have hlt : n * dim + d < nPe * dim := by
    calc n * dim + d < n * dim + dim := by omega
    _ = (n + 1) * dim := by ring
    _ ≤ nPe * dim := Nat.mul_le_mul_right dim (by omega)
  constructor
  · rw [get_assembly, assembly_foldl]
    simp [hmod, hdiv, hlt, List.mem_range, hd]
  · rintro (rfl | rfl)
    · have hm : mesh_assembly connect nPe 2 =
          List.foldl (fun B x => assembly_setD connect nPe 2 x B)
            (fun _ _ => 0) [0, 1] := rfl
      have hdmem : d ∈ [0, 1] := by
        have : d = 0 ∨ d = 1 := by omega
        rcases this with rfl | rfl <;> simp
      rw [hm, assembly_foldl, hmod, hdiv, if_pos ⟨hdmem, hlt⟩]
    · have hm : mesh_assembly connect nPe 3 =
          List.foldl (fun B x => assembly_setD connect nPe 3 x B)
            (fun _ _ => 0) [0, 1, 2] := rfl
      have hdmem : d ∈ [0, 1, 2] := by
        have : d = 0 ∨ d = 1 ∨ d = 2 := by omega
        rcases this with rfl | rfl | rfl <;> simp
      rw [hm, assembly_foldl, hmod, hdiv, if_pos ⟨hdmem, hlt⟩]

/-- Concrete connectivity used as witness input: two elements of two nodes,
connect = [[0, 1], [1, 2]]. -/
def connectw : ℕ → ℕ → ℕ := fun e n => e + n

/-- C5 witness: the assembly-entry theorem applied to the concrete
connectivity at e = 0, n = 1, d = 1, dim = 2, nPe = 2. -/
theorem assembly_entry_witness :
    (1 < 2 ∧ 1 < 2) ∧
    (get_assembly connectw 2 2 0 (1 * 2 + 1) = connectw 0 1 * 2 + 1 ∧
     (2 = 2 ∨ 2 = 3 →
       mesh_assembly connectw 2 2 0 (1 * 2 + 1) = connectw 0 1 * 2 + 1)) :=
  ⟨⟨by decide, by decide⟩,
   assembly_entry connectw 2 2 0 1 1 (by decide) (by decide)⟩

/-! ## Strain-displacement operator (GroupElem.get_B_dep_e_pg) -/

/-- One row-slice assignment of the B-operator construction: the numpy
statement B_e_pg[:,:,r, np.arange(m, nPe*dim, dim)] = vals writes
vals(c / dim) into row r, column c for every column c < nPe*dim with
c % dim = m, leaving all other entries of the previous array B
unchanged. -/
def B_setRow (dim nPe r m : ℕ) (vals : ℕ → ℚ) (B : ℕ → ℕ → ℚ) :
    ℕ → ℕ → ℚ :=
  fun r2 c => if r2 = r ∧ c % dim = m ∧ c < nPe * dim then vals (c / dim)
    else B r2 c

/-- Mirror of the dim == 2 branch of `GroupElem.get_B_dep_e_pg`
(GroupElem.py lines 264-274), per element and gauss point, where
dNdx n = dN_e_pg[e,p,0,n] and dNdy n = dN_e_pg[e,p,1,n]: a zero
3 x (nPe*2) matrix followed by the four slice assignments in source
order. -/
def B_dep_raw2 (nPe : ℕ) (dNdx dNdy : ℕ → ℚ) : ℕ → ℕ → ℚ :=
  let B0 : ℕ → ℕ → ℚ := fun _ _ => 0
  let B1 := B_setRow 2 nPe 0 0 dNdx B0
  let B2 := B_setRow 2 nPe 1 1 dNdy B1
  let B3 := B_setRow 2 nPe 2 0 dNdy B2
  B_setRow 2 nPe 2 1 dNdx B3

/-- Mirror of the dim == 3 branch of `GroupElem.get_B_dep_e_pg`
(GroupElem.py lines 276-289): a zero 6 x (nPe*3) matrix followed by the
nine slice assignments in source order. -/
def B_dep_raw3 (nPe : ℕ) (dNdx dNdy dNdz : ℕ → ℚ) : ℕ → ℕ → ℚ :=
  let B0 : ℕ → ℕ → ℚ := fun _ _ => 0
  let B1 := B_setRow 3 nPe 0 0 dNdx B0
  let B2 := B_setRow 3 nPe 1 1 dNdy B1
  let B3 := B_setRow 3 nPe 2 2 dNdz B2
  let B4 := B_setRow 3 nPe 3 1 dNdz B3
  let B5 := B_setRow 3 nPe 3 2 dNdy B4
  let B6 := B_setRow 3 nPe 4 0 dNdz B5
  let B7 := B_setRow 3 nPe 4 2 dNdx B6
  let B8 := B_setRow 3 nPe 5 0 dNdy B7
  B_setRow 3 nPe 5 1 dNdx B8

/-- Modelled from the spec: `Materiau.LoiDeComportement.AppliqueCoefSurBrigi`
(module Materiau, imported at GroupElem.py line 291, is not under src).
Per spec sections 4.4 and 9, it applies the Kelvin-Mandel coefficient
uniformly to the shear rows of the whole constructed B operator as a
single multiplicative constant: row 2 in 2D, rows 3, 4, 5 in 3D. -/
def AppliqueCoefSurBrigi (dim : ℕ) (coef : ℚ) (B : ℕ → ℕ → ℚ) :
    ℕ → ℕ → ℚ :=
  fun r c =>
    if (dim = 2 ∧ r = 2) ∨ (dim = 3 ∧ (r = 3 ∨ r = 4 ∨ r = 5))
      then coef * B r c else B r c

/-- `GroupElem.get_B_dep_e_pg` in 2D: the raw construction, then the
uniform Kelvin-Mandel coefficient application. -/
def get_B_dep2 (nPe : ℕ) (coef : ℚ) (dNdx dNdy : ℕ → ℚ) : ℕ → ℕ → ℚ :=
  AppliqueCoefSurBrigi 2 coef (B_dep_raw2 nPe dNdx dNdy)

/-- `GroupElem.get_B_dep_e_pg` in 3D. -/
def get_B_dep3 (nPe : ℕ) (coef : ℚ) (dNdx dNdy dNdz : ℕ → ℚ) :
    ℕ → ℕ → ℚ :=
  AppliqueCoefSurBrigi 3 coef (B_dep_raw3 nPe dNdx dNdy dNdz)

/-- C6: in 2D the operator built by `get_B_dep_e_pg` has dN_n/dx in row 0
at column 2n, dN_n/dy in row 1 at column 2n+1, and both dN_n/dy at column
2n and dN_n/dx at column 2n+1 in the shear row 2; the remaining entries of
those columns, and every row past row 2, are zero; the Kelvin-Mandel
coefficient multiplies exactly the shear row, applied after the whole
construction.  Analogously in 3D: rows 0-2 hold the normal derivatives at
the matching DOF columns and the shear rows 3, 4, 5 hold the coefficient
times the paired derivatives. -/
theorem B_dep_layout (nPe : ℕ) (coef : ℚ) (dNdx dNdy dNdz : ℕ → ℚ)
    (n : ℕ) (hn : n < nPe) :
    (get_B_dep2 nPe coef dNdx dNdy 0 (2*n) = dNdx n ∧
     get_B_dep2 nPe coef dNdx dNdy 0 (2*n+1) = 0 ∧
     get_B_dep2 nPe coef dNdx dNdy 1 (2*n) = 0 ∧
     get_B_dep2 nPe coef dNdx dNdy 1 (2*n+1) = dNdy n ∧
     get_B_dep2 nPe coef dNdx dNdy 2 (2*n) = coef * dNdy n ∧
     get_B_dep2 nPe coef dNdx dNdy 2 (2*n+1) = coef * dNdx n ∧
     (forall r c : ℕ, 3 ≤ r → get_B_dep2 nPe coef dNdx dNdy r c = 0)) ∧
    (get_B_dep3 nPe coef dNdx dNdy dNdz 0 (3*n) = dNdx n ∧
     get_B_dep3 nPe coef dNdx dNdy dNdz 1 (3*n+1) = dNdy n ∧
     get_B_dep3 nPe coef dNdx dNdy dNdz 2 (3*n+2) = dNdz n ∧
     get_B_dep3 nPe coef dNdx dNdy dNdz 3 (3*n+1) = coef * dNdz n ∧
     get_B_dep3 nPe coef dNdx dNdy dNdz 3 (3*n+2) = coef * dNdy n ∧
     get_B_dep3 nPe coef dNdx dNdy dNdz 4 (3*n) = coef * dNdz n ∧
     get_B_dep3 nPe coef dNdx dNdy dNdz 4 (3*n+2) = coef * dNdx n ∧
     get_B_dep3 nPe coef dNdx dNdy dNdz 5 (3*n) = coef * dNdy n ∧
     get_B_dep3 nPe coef dNdx dNdy dNdz 5 (3*n+1) = coef * dNdx n) := by
  have m20 : (2*n) % 2 = 0 := by omega
  have d20 : (2*n) / 2 = n := by omega
  have m21 : (2*n+1) % 2 = 1 := by omega
  have d21 : (2*n+1) / 2 = n := by omega
  have l20 : 2*n < nPe * 2 := by omega
  have l21 : 2*n+1 < nPe * 2 := by omega
  have m30 : (3*n) % 3 = 0 := by omega
  have d30 : (3*n) / 3 = n := by omega
  have m31 : (3*n+1) % 3 = 1 := by omega
  have d31 : (3*n+1) / 3 = n := by omega
  have m32 : (3*n+2) % 3 = 2 := by omega
  have d32 : (3*n+2) / 3 = n := by omega
  have l30 : 3*n < nPe * 3 := by omega
  have l31 : 3*n+1 < nPe * 3 := by omega
  have l32 : 3*n+2 < nPe * 3 := by omega
  refine ⟨⟨?_, ?_, ?_, ?_, ?_, ?_, ?_⟩, ?_, ?_, ?_, ?_, ?_, ?_, ?_, ?_, ?_⟩ <;>
    try simp [get_B_dep2, get_B_dep3, AppliqueCoefSurBrigi, B_dep_raw2,
      B_dep_raw3, B_setRow, m20, d20, m21, d21, l20, l21,
      m30, d30, m31, d31, m32, d32, l30, l31, l32]
  intro r c hr
  have h0 : r ≠ 0 := by omega
  have h1 : r ≠ 1 := by omega
  have h2 : r ≠ 2 := by omega
  simp [get_B_dep2, AppliqueCoefSurBrigi, B_dep_raw2, B_setRow, h0, h1, h2]

/-- C6 witness: the layout theorem applied at nPe = 1, n = 0 with concrete
derivative values 5, 7, 11 and coefficient 2. -/
theorem B_dep_layout_witness :
    (0 < 1) ∧
    ((get_B_dep2 1 2 (fun _ => 5) (fun _ => 7) 0 (2*0) = 5 ∧
      get_B_dep2 1 2 (fun _ => 5) (fun _ => 7) 0 (2*0+1) = 0 ∧
      get_B_dep2 1 2 (fun _ => 5) (fun _ => 7) 1 (2*0) = 0 ∧
      get_B_dep2 1 2 (fun _ => 5) (fun _ => 7) 1 (2*0+1) = 7 ∧
      get_B_dep2 1 2 (fun _ => 5) (fun _ => 7) 2 (2*0) = 2 * 7 ∧
      get_B_dep2 1 2 (fun _ => 5) (fun _ => 7) 2 (2*0+1) = 2 * 5 ∧
      (forall r c : ℕ, 3 ≤ r → get_B_dep2 1 2 (fun _ => 5) (fun _ => 7) r c = 0)) ∧
     (get_B_dep3 1 2 (fun _ => 5) (fun _ => 7) (fun _ => 11) 0 (3*0) = 5 ∧
      get_B_dep3 1 2 (fun _ => 5) (fun _ => 7) (fun _ => 11) 1 (3*0+1) = 7 ∧
      get_B_dep3 1 2 (fun _ => 5) (fun _ => 7) (fun _ => 11) 2 (3*0+2) = 11 ∧
      get_B_dep3 1 2 (fun _ => 5) (fun _ => 7) (fun _ => 11) 3 (3*0+1) = 2 * 11 ∧
      get_B_dep3 1 2 (fun _ => 5) (fun _ => 7) (fun _ => 11) 3 (3*0+2) = 2 * 7 ∧
      get_B_dep3 1 2 (fun _ => 5) (fun _ => 7) (fun _ => 11) 4 (3*0) = 2 * 11 ∧
      get_B_dep3 1 2 (fun _ => 5) (fun _ => 7) (fun _ => 11) 4 (3*0+2) = 2 * 5 ∧
      get_B_dep3 1 2 (fun _ => 5) (fun _ => 7) (fun _ => 11) 5 (3*0) = 2 * 7 ∧
      get_B_dep3 1 2 (fun _ => 5) (fun _ => 7) (fun _ => 11) 5 (3*0+1) = 2 * 5)) :=
  ⟨by decide, B_dep_layout 1 2 (fun _ => 5) (fun _ => 7) (fun _ => 11) 0 (by decide)⟩

/-! ## Node-to-element incidence (GroupElem.connect_n_e, get_elements) -/

/-- Mirror of `GroupElem.__get_connect_n_e` (GroupElem.py lines 86-104):
the csr matrix built from value 1 at (connect[e][m], e) for every slot m
accumulates duplicate coordinates, so entry (node, e) equals the number of
occurrences of the node in row e of the connectivity. -/
def connect_n_e (connect : List (List ℕ)) (node e : ℕ) : ℕ :=
  (connect.getD e []).count node

/-- Mirror of `GroupElem.get_elements` (GroupElem.py lines 106-118): the
distinct nonzero columns of the rows of connect_n_e selected by noeuds are
the elements touching at least one listed node; when exclusivement is set,
the list comprehension keeps only the elements all of whose connectivity
nodes belong to noeuds. -/
def get_elements (connect : List (List ℕ)) (noeuds : List ℕ)
    (exclusivement : Bool) : List ℕ :=
  let elements := (List.range connect.length).filter
    (fun e => noeuds.any (fun node => connect_n_e connect node e != 0))
  if exclusivement then
    elements.filter
      (fun e => (connect.getD e []).all (fun node => noeuds.contains node))
  else elements

/-- C8: for every element group and node set, `get_elements` with
exclusivement = False returns exactly the elements having at least one
node in the set, and with exclusivement = True exactly the elements all of
whose connectivity nodes belong to the set; the underlying incidence
matrix `connect_n_e` has a nonzero entry (node, e) exactly when the node
is a node of element e.  (The element rows of a real group are nonempty,
which the exclusive direction uses.) -/
theorem get_elements_spec (connect : List (List ℕ)) (noeuds : List ℕ)
    (e : ℕ) (hrow : connect.getD e [] ≠ []) :
    (e ∈ get_elements connect noeuds false ↔
      e < connect.length ∧ ∃ node ∈ noeuds, node ∈ connect.getD e []) ∧
    (e ∈ get_elements connect noeuds true ↔
      e < connect.length ∧ ∀ node ∈ connect.getD e [], node ∈ noeuds) ∧
    (forall node : ℕ, connect_n_e connect node e ≠ 0 ↔
      node ∈ connect.getD e []) := by
  have hcount : forall node : ℕ,
      (connect_n_e connect node e != 0) = true ↔ node ∈ connect.getD e [] := by
    intro node
    simp [connect_n_e, List.count_eq_zero]
  have hcontains : forall x : ℕ, (noeuds.contains x = true) ↔ x ∈ noeuds :=
    fun x => List.elem_iff
  have hf : get_elements connect noeuds false =
      (List.range connect.length).filter
        (fun e => noeuds.any (fun node => connect_n_e connect node e != 0)) := rfl
  have ht : get_elements connect noeuds true =
      ((List.range connect.length).filter
        (fun e => noeuds.any (fun node => connect_n_e connect node e != 0))).filter
        (fun e => (connect.getD e []).all (fun node => noeuds.contains node)) := rfl
  refine ⟨?_, ?_, ?_⟩
  · rw [hf]
    simp only [List.mem_filter, List.mem_range, List.any_eq_true]
    constructor
    · rintro ⟨he, node, hn, hc⟩
      exact ⟨he, node, hn, (hcount node).mp hc⟩
    · rintro ⟨he, node, hn, hc⟩
      exact ⟨he, node, hn, (hcount node).mpr hc⟩
  · rw [ht]
    simp only [List.mem_filter, List.mem_range, List.any_eq_true,
      List.all_eq_true, hcontains]
    constructor
    · rintro ⟨⟨he, _⟩, hall⟩
      exact ⟨he, hall⟩
    · rintro ⟨he, hall⟩
      obtain ⟨x, hx⟩ := List.exists_mem_of_ne_nil _ hrow
      exact ⟨⟨he, x, hall x hx, (hcount x).mpr hx⟩, hall⟩
  · intro node
    constructor
    · intro h
      exact (hcount node).mp (by simpa using h)
    · intro h
      have := (hcount node).mpr h
      simpa using this

/-- C8 witness: the query theorem applied to the concrete two-element
group connect = [[0, 1], [1, 2]] with noeuds = [0, 1] at element 0. -/
theorem get_elements_spec_witness :
    (([[0, 1], [1, 2]] : List (List ℕ)).getD 0 [] ≠ []) ∧
    ((0 ∈ get_elements [[0, 1], [1, 2]] [0, 1] false ↔
       0 < ([[0, 1], [1, 2]] : List (List ℕ)).length ∧
       ∃ node ∈ ([0, 1] : List ℕ), node ∈ ([[0, 1], [1, 2]] : List (List ℕ)).getD 0 []) ∧
     (0 ∈ get_elements [[0, 1], [1, 2]] [0, 1] true ↔
       0 < ([[0, 1], [1, 2]] : List (List ℕ)).length ∧
       ∀ node ∈ ([[0, 1], [1, 2]] : List (List ℕ)).getD 0 [], node ∈ ([0, 1] : List ℕ)) ∧
     (forall node : ℕ, connect_n_e [[0, 1], [1, 2]] node 0 ≠ 0 ↔
       node ∈ ([[0, 1], [1, 2]] : List (List ℕ)).getD 0 [])) :=
  ⟨by decide, get_elements_spec [[0, 1], [1, 2]] [0, 1] 0 (by decide)⟩

/-! ## Point transforms (modules/Geom.py) -/

/-- Mirror of the `Point` class state (Geom.py lines 12-32): the private
coordinate array, the isOpen flag and the fillet radius. -/
structure Point where
  coordo : Fin 3 → ℝ
  isOpen : Bool
  r : ℝ

/-- Mirror of `Geom.Translate_coordo` (Geom.py lines 903-912) for one
coordinate row: componentwise addition of the displacement (dx, dy, dz). -/
def Translate_coordo (coordo : Fin 3 → ℝ) (dx dy dz : ℝ) : Fin 3 → ℝ :=
  fun idx => coordo idx + ![dx, dy, dz] idx

/-- Mirror of `Geom.rotation_matrix` (Geom.py lines 866-880): axis-angle
rotation matrix around the normalised direction. -/
noncomputable def rotation_matrix (vect : Fin 3 → ℝ) (theta : ℝ) :
    Matrix (Fin 3) (Fin 3) ℝ :=
  let n := normalize3 vect
  let x := n 0
  let y := n 1
  let z := n 2
  let c := Real.cos theta
  let s := Real.sin theta
  let C := 1 - c
  Matrix.of ![![x*x*C + c,   x*y*C - z*s, x*z*C + y*s],
              ![y*x*C + z*s, y*y*C + c,   y*z*C - x*s],
              ![z*x*C - y*s, z*y*C + x*s, z*z*C + c]]

/-- Mirror of `Geom.Rotate_coordo` (Geom.py lines 914-944) for one row:
the einsum ij,nj->ni gives rotMat * (old - center) + center. -/
noncomputable def Rotate_coordo (coordo : Fin 3 → ℝ) (theta : ℝ)
    (center direction : Fin 3 → ℝ) : Fin 3 → ℝ :=
  fun i =>
    (Finset.univ.sum fun j =>
      rotation_matrix direction theta i j * (coordo j - center j)) + center i

/-- Mirror of `Geom.Symmetry_coordo` (Geom.py lines 946-973) for one row:
reflection across the plane through the given point with normalised
normal. -/
noncomputable def Symmetry_coordo (coordo : Fin 3 → ℝ)
    (point nvec : Fin 3 → ℝ) : Fin 3 → ℝ :=
  let nn := normalize3 nvec
  let d := dot3 (fun i => coordo i - point i) nn
  fun i => coordo i - 2 * d * nn i

/-- Mirror of `Point.translate` (Geom.py lines 92-95): the method
reassigns self.__coordo in place and falls off the end, returning None.
The embedding returns the updated state of self together with the method
return value. -/
def Point.translate (p : Point) (dx dy dz : ℝ) : Point × Option Point :=
  ({ p with coordo := Translate_coordo p.coordo dx dy dz }, none)

/-- Mirror of `Point.rotate` (Geom.py lines 97-109): reassigns
self.__coordo in place and returns None. -/
noncomputable def Point.rotate (p : Point) (theta : ℝ)
    (center direction : Fin 3 → ℝ) : Point × Option Point :=
  ({ p with coordo := Rotate_coordo p.coordo theta center direction }, none)

/-- Mirror of `Point.symmetry` (Geom.py lines 111-121): reassigns
self.__coordo in place and returns None. -/
noncomputable def Point.symmetry (p : Point) (point nvec : Fin 3 → ℝ) :
    Point × Option Point :=
  ({ p with coordo := Symmetry_coordo p.coordo point nvec }, none)

/-- Mirror of `Point.__add__` (Geom.py lines 125-128): builds and returns
a fresh Point carrying the summed coordinates and the isOpen and r fields
of self; self is not modified. -/
def Point.add (p : Point) (value : Fin 3 → ℝ) : Point :=
  Point.mk (fun i => p.coordo i + value i) p.isOpen p.r

/-- Origin point used in the C9 counterexample. -/
def pOrigin : Point := ⟨![0, 0, 0], false, 0⟩

/-- C9 counterexample: `Point.translate` does not return a new Point and
does not leave the original unchanged.  Calling translate(1, 0, 0) on the
point at the origin returns None, and afterwards the x coordinate of the
point itself is 1 instead of the original 0: the method mutates
self.__coordo in place. -/
theorem point_translate_mutates :
    (pOrigin.translate 1 0 0).2 = none ∧
    (pOrigin.translate 1 0 0).1.coordo 0 = 1 ∧
    pOrigin.coordo 0 = 0 := by
  refine ⟨rfl, ?_, by simp [pOrigin]⟩
  simp [pOrigin, Point.translate, Translate_coordo]

/-- C9 amended: `translate`, `rotate` and `symmetry` mutate the Point in
place — the post-state of self carries the transformed coordinates and the
method returns None — while the arithmetic operator `__add__` returns a
new Point (with the isOpen flag and fillet radius copied from self)
without modifying self.  The rotation sanity conjunct checks that rotating
(1,0,0) around the z axis moves the point to (cos theta, sin theta, 0). -/
theorem point_transforms_mutate_in_place (p : Point) (dx dy dz theta : ℝ)
    (center direction point nvec v : Fin 3 → ℝ) :
    (p.translate dx dy dz).1.coordo = Translate_coordo p.coordo dx dy dz ∧
    (p.translate dx dy dz).2 = none ∧
    (p.rotate theta center direction).1.coordo =
      Rotate_coordo p.coordo theta center direction ∧
    (p.rotate theta center direction).2 = none ∧
    (p.symmetry point nvec).1.coordo = Symmetry_coordo p.coordo point nvec ∧
    (p.symmetry point nvec).2 = none ∧
    (p.add v).coordo = (fun i => p.coordo i + v i) ∧
    (p.add v).isOpen = p.isOpen ∧ (p.add v).r = p.r ∧
    Rotate_coordo ![1, 0, 0] theta ![0, 0, 0] ![0, 0, 1] =
      ![Real.cos theta, Real.sin theta, 0] := by
  refine ⟨rfl, rfl, rfl, rfl, rfl, rfl, rfl, rfl, rfl, ?_⟩
  have hn : normalize3 ![0, 0, 1] = ![0, 0, 1] := by
    funext idx
    have h1 : norm3 ![0, 0, 1] = 1 := by
      simp [norm3]
    fin_cases idx <;> simp [normalize3, h1]
  funext i
  fin_cases i <;>
    simp [Rotate_coordo, rotation_matrix, hn, Fin.sum_univ_three]

/-! ## Memoize-then-copy cache discipline (GroupElem array getters)

`GroupElem.get_dN_e_pg`, `get_B_dep_e_pg`, `get_jacobien_e_pg` and
`get_invF_e_pg` all share one pattern (GroupElem.py lines 222-239,
241-296, 470-482, 484-520): if the matriceType key is missing from the
per-instance dict, compute the array and store it under the key; then
return `stored.copy()`.  To express aliasing, arrays live in an explicit
heap addressed by natural-number references; `.copy()` allocates a fresh
reference holding the same value. -/

/-- Cache state of one getter for one matriceType key: the heap of
allocated arrays, the next free reference, and the optional cached
reference. -/
structure CacheState where
  heap : ℕ → List ℚ
  next : ℕ
  cached : Option ℕ

/-- Allocation of a fresh array on the heap. -/
def alloc (st : CacheState) (a : List ℚ) : ℕ × CacheState :=
  (st.next, ⟨Function.update st.heap st.next a, st.next + 1, st.cached⟩)

/-- The shared memoize-then-copy getter pattern: on a cache miss the
computed array is stored and the cache now points at it; in both cases the
caller receives a freshly allocated copy of the cached array, never the
cached reference itself. -/
def getCachedCopy (compute : List ℚ) (st : CacheState) : ℕ × CacheState :=
  match st.cached with
  | none =>
      let rs := alloc st compute
      let st2 : CacheState := ⟨rs.2.heap, rs.2.next, some rs.1⟩
      alloc st2 (st2.heap rs.1)
  | some r => alloc st (st.heap r)

/-- In-place mutation of the array behind a reference, modelling the
caller writing into the numpy array it received. -/
def writeRef (st : CacheState) (ref : ℕ) (a : List ℚ) : CacheState :=
  ⟨Function.update st.heap ref a, st.next, st.cached⟩

/-- C10: starting from a state whose cache key is absent (as after
__init__), a call of the memoize-then-copy getter returns an array equal
to the computed one; after the caller overwrites the returned array with
arbitrary junk, the internal cached slot still holds the computed array,
and a second call returns the computed array again — mutating a returned
array never changes the result of a later call. -/
theorem cached_getters_defensive_copy (compute junk : List ℚ)
    (st : CacheState) (h : st.cached = none) :
    ((getCachedCopy compute st).2.heap (getCachedCopy compute st).1 =
       compute) ∧
    ((writeRef (getCachedCopy compute st).2 (getCachedCopy compute st).1
        junk).heap
      (((getCachedCopy compute st).2.cached).getD 0) = compute) ∧
    ((getCachedCopy compute
        (writeRef (getCachedCopy compute st).2 (getCachedCopy compute st).1
          junk)).2.heap
      (getCachedCopy compute
        (writeRef (getCachedCopy compute st).2 (getCachedCopy compute st).1
          junk)).1 = compute) := by
  obtain ⟨heap, nxt, cached⟩ := st
  subst h
  refine ⟨?_, ?_, ?_⟩ <;>
    simp [getCachedCopy, alloc, writeRef, Function.update, Option.getD]

/-- Fresh cache state used as witness input: empty heap, no cached
reference. -/
def st0 : CacheState := ⟨fun _ => [], 0, none⟩

/-- C10 witness: the defensive-copy theorem applied to the fresh state
with computed array [1, 2] and junk [9]. -/
theorem cached_getters_defensive_copy_witness :
    (st0.cached = none) ∧
    (((getCachedCopy [1, 2] st0).2.heap (getCachedCopy [1, 2] st0).1 =
        [1, 2]) ∧
     ((writeRef (getCachedCopy [1, 2] st0).2 (getCachedCopy [1, 2] st0).1
         [9]).heap
       (((getCachedCopy [1, 2] st0).2.cached).getD 0) = [1, 2]) ∧
     ((getCachedCopy [1, 2]
         (writeRef (getCachedCopy [1, 2] st0).2 (getCachedCopy [1, 2] st0).1
           [9])).2.heap
       (getCachedCopy [1, 2]
         (writeRef (getCachedCopy [1, 2] st0).2 (getCachedCopy [1, 2] st0).1
           [9])).1 = [1, 2])) :=
  ⟨rfl, cached_getters_defensive_copy [1, 2] [9] st0 rfl⟩
